import Mathlib

/-!
# Verification of the assist-tee Execution Core

Shallow embedding of the Go execution core of the assist-tee service
(package `executor`: `SetupEnvironment`, `ExecuteInEnvironment`,
`buildAllowedEnvVars`, and package `reaper`: `reapExpiredEnvironments`,
`ReconcileEnvironments`).  External effects (Docker commands, database
statements) are modelled as explicit effect traces; outcomes of external
calls (volume creation success, worker run result, JSON parse result,
database write success) are passed in as parameters so that the pure
control flow of the Go code is captured exactly.
-/

namespace AssistTee

/-! ## Module name validation (executor.go, `isValidModuleName`) -/

/-- One character of the character class of `validModuleNameRegex`
(letters, digits, dot, underscore, slash, dash). -/
def validModuleChar (c : Char) : Bool :=
  (('A' ≤ c && c ≤ 'Z') || ('a' ≤ c && c ≤ 'z') || ('0' ≤ c && c ≤ '9')
    || c = '.' || c = '_' || c = '/' || c = '-')

/-- `needle` occurs as a contiguous sub-list of `haystack` (checked at
every suffix). -/
def listContainsSub (haystack needle : List Char) : Bool :=
  match haystack with
  | [] => needle.isEmpty
  | _ :: rest => needle.isPrefixOf haystack || listContainsSub rest needle

/-- Go `strings.Contains s pat`, on the character lists. -/
def containsSubstr (s pat : String) : Bool :=
  listContainsSub s.data pat.data

/-- Go `validModuleNameRegex.MatchString`: the anchored regex (one or
more characters from the class of `validModuleChar`, and nothing else)
matches exactly the nonempty strings all of whose characters are in the
class.  (Go measures `len(name)` in bytes while
this model counts characters; the two agree on every string that can
pass the regex, which admits only one-byte characters, and on the
rejected side both model and code reject, so the boolean result agrees on
all inputs.) -/
def regexMatchString (s : String) : Bool :=
  !s.data.isEmpty && s.data.all validModuleChar

/-- Go `strings.HasPrefix name "/"`: the first character is a slash. -/
def startsWithSlash (name : String) : Bool :=
  match name.data with
  | c :: _ => c == '/'
  | [] => false

/-- `isValidModuleName` from executor.go: rejects the empty name, names
longer than 255, a leading slash, any occurrence of `..`, and anything
the regex does not match. -/
def isValidModuleName (name : String) : Bool :=
  if name = "" || name.data.length > 255 then false
  else if startsWithSlash name then false
  else if containsSubstr name ".." then false
  else regexMatchString name

/-! ## Data model (models.go) -/

/-- `models.Dependencies`: npm package specs and deno URL specs. -/
structure Dependencies where
  npm : List String
  deno : List String
deriving DecidableEq

/-- A JSON-ish value as it appears in the decoded `metadata` blob
(`map[string]interface{}` after `json.Unmarshal`).  `parr` is
`[]interface{}` (elements of any shape), `pbool` a boolean, `pstr` a
string, `pother` any other shape (number, object, ...). -/
inductive PermValue
  | pbool (b : Bool)
  | parr (items : List PermValue)
  | pstr (s : String)
  | pother

/-- The `permissions` entry of the metadata blob, once present and
non-nil: either a JSON object (with the two keys the executor reads;
`none` means the key is absent or nil) or some non-object value. -/
inductive MetaPermissions
  | notMap
  | pmap (allowNet : Option PermValue) (allowEnv : Option PermValue)

/-- The decoded environment `metadata` as `ExecuteInEnvironment` sees it:
`none` = the metadata map is nil; `some none` = the `permissions` key is
absent or nil; `some (some p)` = the `permissions` value `p`. -/
def EnvMetadata := Option (Option MetaPermissions)

/-- `models.ResourceLimits` (`timeoutMs`, `memoryMb`). -/
structure ResourceLimits where
  timeoutMs : Int
  memoryMb : Int
deriving DecidableEq

/-- The fields of `models.ExecuteRequest` the execution pipeline
branches on: the keys of `req.Env` (in Go a map; modelled as a list in
iteration order) and the optional limits. -/
structure ExecuteRequest where
  envKeys : List String
  limits : Option ResourceLimits
deriving DecidableEq

/-- The columns `ExecuteInEnvironment` reads from the `environments`
row: `volume_name`, `main_module`, `runtime` (a nullable string) and the
decoded `metadata`. -/
structure EnvRow where
  volumeName : String
  mainModule : String
  runtime : Option String
  metadata : EnvMetadata

/-- `models.ExecutionResponse` (the `ID` field, a fresh UUID, is
omitted; every other field is carried). -/
structure ExecutionResponse where
  exitCode : Int
  stdout : String
  stderr : String
  durationMs : Int
deriving DecidableEq

/-! ## Configuration read from process environment variables -/

/-- Configuration consumed by the execute pipeline.  An `Option String`
image field is `none` when the corresponding variable is unset or empty;
an `Option Int` cap field is the `strconv.Atoi` result of the variable,
`none` when the variable is unset, empty, or unparseable. -/
structure ExecConfig where
  gvisorDisabled : Bool
  runtimeImageBun : Option String
  runtimeImageDeno : Option String
  runtimeImageLegacy : Option String
  maxTimeoutMsCfg : Option Int
  maxMemoryMbCfg : Option Int

/-- `RuntimeImage` from executor.go: per-runtime image override with the
legacy `RUNTIME_IMAGE` fallback for deno. -/
def RuntimeImage (cfg : ExecConfig) (runtime : String) : String :=
  if runtime = "bun" then
    match cfg.runtimeImageBun with
    | some img => img
    | none => "octaviusdeployment/assist-tee-rt-bun:latest"
  else
    match cfg.runtimeImageDeno with
    | some img => img
    | none =>
      match cfg.runtimeImageLegacy with
      | some img => img
      | none => "octaviusdeployment/assist-tee-rt-deno:latest"

/-! ## Effective limits (executor.go lines 347-377) -/

/-- Steps "2. Apply limits" and "Apply hard caps" of
`ExecuteInEnvironment`: defaults 5000 ms / 128 MB, replaced by a
positive request limit, then clamped by the caps, whose defaults 60000 /
512 are replaced by a positive parsed `MAX_TIMEOUT_MS` /
`MAX_MEMORY_MB`. -/
def effectiveLimits (limits : Option ResourceLimits)
    (maxTimeoutMsCfg maxMemoryMbCfg : Option Int) : Int × Int :=
  let timeoutMs : Int := 5000
  let memoryMb : Int := 128
  let (timeoutMs, memoryMb) :=
    match limits with
    | some l =>
      (if l.timeoutMs > 0 then l.timeoutMs else timeoutMs,
       if l.memoryMb > 0 then l.memoryMb else memoryMb)
    | none => (timeoutMs, memoryMb)
  let maxTimeoutMs : Int :=
    match maxTimeoutMsCfg with
    | some parsed => if parsed > 0 then parsed else 60000
    | none => 60000
  let maxMemoryMb : Int :=
    match maxMemoryMbCfg with
    | some parsed => if parsed > 0 then parsed else 512
    | none => 512
  let timeoutMs := if timeoutMs > maxTimeoutMs then maxTimeoutMs else timeoutMs
  let memoryMb := if memoryMb > maxMemoryMb then maxMemoryMb else memoryMb
  (timeoutMs, memoryMb)

/-! ## Allowed environment variables (executor.go, `buildAllowedEnvVars`) -/

/-- `buildAllowedEnvVars` from executor.go.  Returns `""` (no
restriction: the `-e ALLOWED_ENV_VARS` flag is then not passed, which the
runtime wrapper treats as allow-all) when the metadata is nil, the
`permissions` entry is absent/nil/not an object, the `allowEnv` entry is
absent/nil, `allowEnv` is the boolean `true`, or `allowEnv` has a shape
the `switch` does not recognise (including the boolean `false`, which
falls through to the `default` case).  When `allowEnv` is a JSON array,
its string elements are intersected with the request env keys; an empty
intersection yields the sentinel `"__NONE__"`. -/
def buildAllowedEnvVars (metadata : EnvMetadata) (reqEnvKeys : List String) : String :=
  match metadata with
  | none => ""
  | some perms =>
    match perms with
    | none => ""
    | some MetaPermissions.notMap => ""
    | some (MetaPermissions.pmap _ allowEnv) =>
      match allowEnv with
      | none => ""
      | some (PermValue.pbool true) => ""
      | some (PermValue.parr items) =>
        let allowedSet := items.filterMap fun it =>
          match it with
          | PermValue.pstr s => some s
          | _ => none
        let allowedVars := reqEnvKeys.filter fun key => allowedSet.contains key
        if allowedVars.isEmpty then "__NONE__"
        else String.intercalate "," allowedVars
      | some (PermValue.pbool false) => ""
      | some (PermValue.pstr _) => ""
      | some PermValue.pother => ""

/-! ## Docker run arguments (executor.go lines 416-463) -/

/-- Step "4. Build docker run command" of `ExecuteInEnvironment`: the
argument list passed to `docker`, including the unconditional
`--network=none`, the read-only workspace mount, the runtime-specific
cache mount, and (deno only) the `ALLOWED_ENV_VARS` variable when
`buildAllowedEnvVars` returned a nonempty string. -/
def buildDockerArgs (cfg : ExecConfig) (volumeName : String) (memoryMb : Int)
    (runtime : String) (metadata : EnvMetadata) (reqEnvKeys : List String) :
    List String :=
  let args := ["run", "--rm", "-i"]
  let args := args ++ (if !cfg.gvisorDisabled then ["--runtime=runsc"] else [])
  let args := args ++
    ["--network=none", "--user=1000:1000", "--read-only",
     "--memory=" ++ toString memoryMb ++ "m", "--cpus=0.5", "--pids-limit=100",
     "-v", volumeName ++ ":/workspace:ro"]
  let args := args ++
    (if runtime = "bun" then
      ["-v", volumeName ++ ":/home/bun/.bun:ro"]
    else
      ["-v", volumeName ++ ":/deno-dir:ro", "-e", "DENO_DIR=/deno-dir"] ++
      (let allowedEnvVars := buildAllowedEnvVars metadata reqEnvKeys
       if allowedEnvVars ≠ "" then ["-e", "ALLOWED_ENV_VARS=" ++ allowedEnvVars]
       else []))
  args ++ [RuntimeImage cfg runtime]

/-! ## Worker run outcome (executor.go lines 465-528)

The worker is started with `exec.CommandContext` and `cmd.Run()`.  The
pure handler code branches on (a) the error value `cmd.Run` returned, (b)
whether `execCtx.Err() == context.DeadlineExceeded`, and (c) whether
`json.Unmarshal` of the captured stdout into the
`{success, result, error}` struct succeeded.  These three observations
are inputs of the embedding. -/

/-- The error `cmd.Run` returned: `exitErr code` is a Go
`*exec.ExitError` whose `ExitCode()` is `code` (for a process killed by
a signal, including the kill issued by `exec.CommandContext` on context
expiry, Go reports an `*exec.ExitError` with `ExitCode() = -1`);
`otherErr` is any error of a different dynamic type (for example a
failure to start the process). -/
inductive RunErr
  | exitErr (code : Int)
  | otherErr
deriving DecidableEq

/-- The decoded structured-output struct of step 7 of
`ExecuteInEnvironment`: `success`, `resultJSON` (the string
`json.Marshal` produces from the `result` field), and the `error`
message. -/
structure Frame where
  success : Bool
  resultJSON : String
  errorMsg : String
deriving DecidableEq

/-- Everything the execute pipeline observes about one worker run. -/
structure RunOutcome where
  err : Option RunErr
  deadlineExceeded : Bool
  stdoutRaw : String
  stderrRaw : String
  stdoutParse : Option Frame
  durationMs : Int
deriving DecidableEq

/-! ## The execute pipeline (executor.go, `ExecuteInEnvironment`) -/

/-- A side effect of the execute pipeline, in order of occurrence: the
worker invocation (with its context timeout and full `docker` argument
list), the `INSERT INTO executions` and the `UPDATE environments`
statement, each tagged with whether the database accepted it. -/
inductive ExecEffect
  | runWorker (timeoutMs : Int) (args : List String)
  | insertExecution (exitCode : Int) (stdout stderr : String) (ok : Bool)
  | updateStats (ok : Bool)
deriving DecidableEq

/-- Result of `ExecuteInEnvironment`: a response (HTTP 200 even for
nonzero exit codes) or a Go error. -/
inductive ExecOutcome
  | ok (resp : ExecutionResponse)
  | err (msg : String)
deriving DecidableEq

/-- Steps 6-7 of `ExecuteInEnvironment` for a run that completed (its
error, if any, was an `*exec.ExitError`): start from the worker's exit
code, then reinterpret the captured stdout — a frame with
`success = true` yields the marshalled result as the response stdout; a
frame with `success = false` moves the frame's error into stderr and
promotes a zero exit code to 1; an unparseable stdout is passed through
as the opaque result string. -/
def completedResponse (out : RunOutcome) : ExecutionResponse :=
  let exitCode0 : Int :=
    match out.err with
    | some (RunErr.exitErr c) => c
    | _ => 0
  let (exitCode, stderrStr, resultJSON) :=
    match out.stdoutParse with
    | some f =>
      if f.success then (exitCode0, out.stderrRaw, f.resultJSON)
      else ((if exitCode0 = 0 then 1 else exitCode0), f.errorMsg, "")
    | none => (exitCode0, out.stderrRaw, out.stdoutRaw)
  { exitCode := exitCode, stdout := resultJSON, stderr := stderrStr,
    durationMs := out.durationMs }

/-- `ExecuteInEnvironment` from executor.go, as a function of the looked
up environment row (`none` = no `ready` row, the `sql.ErrNoRows` path),
the request, the worker-run outcome, and the success of the two
best-effort database writes.  Returns the Go result together with the
effect trace.  The semaphore step and the input-frame marshalling
(which cannot fail on the values involved) are not modelled. -/
def ExecuteInEnvironment (cfg : ExecConfig) (envRow : Option EnvRow)
    (req : ExecuteRequest) (out : RunOutcome) (insertOk updateOk : Bool) :
    ExecOutcome × List ExecEffect :=
  match envRow with
  | none => (ExecOutcome.err "environment not found or not ready", [])
  | some row =>
    let runtime :=
      match row.runtime with
      | some s => if s ≠ "" then s else "deno"
      | none => "deno"
    let (timeoutMs, memoryMb) :=
      effectiveLimits req.limits cfg.maxTimeoutMsCfg cfg.maxMemoryMbCfg
    let args := buildDockerArgs cfg row.volumeName memoryMb runtime
      row.metadata req.envKeys
    let ran := [ExecEffect.runWorker timeoutMs args]
    -- 6. Handle exit
    match out.err with
    | some RunErr.otherErr =>
      if out.deadlineExceeded then
        (ExecOutcome.ok
          { exitCode := 124, stdout := "",
            stderr := "Execution timeout exceeded",
            durationMs := out.durationMs }, ran)
      else
        (ExecOutcome.err "execution failed", ran)
    | _ =>
      -- 7.-9. Parse structured output, store the record, update stats
      let resp := completedResponse out
      (ExecOutcome.ok resp,
       ran ++
        [ExecEffect.insertExecution resp.exitCode resp.stdout resp.stderr insertOk,
         ExecEffect.updateStats updateOk])

/-! ## The setup pipeline (executor.go, `SetupEnvironment`) -/

/-- The fields of `models.SetupRequest` the setup pipeline uses.
`modules` is the Go map `filename → content` as a list in iteration
order; `runtime = ""` means the field was not supplied. -/
structure SetupRequest where
  mainModule : String
  modules : List (String × String)
  dependencies : Option Dependencies
  ttlSeconds : Int
  runtime : String
deriving DecidableEq

/-- A side effect of the setup pipeline, in order of occurrence. -/
inductive SetupEffect
  | createVolume (v : String)
  | writeModule (v filename : String)
  | chownVolume (v : String)
  | installDependencies (v : String)
  | insertRow (id v mainModule runtime : String) (ttlSeconds : Int)
  | removeVolume (v : String)
deriving DecidableEq

/-- Success or failure of each external call the setup pipeline makes
(the chown helper is absent: its failure is only logged and does not
change control flow). -/
structure SetupWorld where
  createVolumeOk : Bool
  writeModuleOk : String → Bool
  installOk : Bool
  insertOk : Bool

/-- The fields of `models.Environment` that `SetupEnvironment` returns
(timestamps and the metadata bag omitted). -/
structure Environment where
  id : String
  volumeName : String
  mainModule : String
  runtime : String
  executionCount : Int
  status : String
  ttlSeconds : Int
deriving DecidableEq

/-- Result of `SetupEnvironment`. -/
inductive SetupOutcome
  | ok (env : Environment)
  | err (msg : String)
deriving DecidableEq

/-- The dependency-presence test of `SetupEnvironment`:
`req.Dependencies != nil && (len(NPM) > 0 || len(Deno) > 0)`. -/
def hasDependencies (req : SetupRequest) : Bool :=
  match req.dependencies with
  | some d => !d.npm.isEmpty || !d.deno.isEmpty
  | none => false

/-- TTL resolution of `SetupEnvironment`: a requested TTL of exactly 0
becomes the 3600-second default, any other value is kept verbatim. -/
def resolveTTL (t : Int) : Int :=
  if t = 0 then 3600 else t

/-- The module-writing loop of `SetupEnvironment` (one helper container
per module, stopping at the first failure). -/
def writeModules (w : SetupWorld) (v : String) :
    List (String × String) → List SetupEffect × Bool
  | [] => ([], true)
  | (filename, _) :: rest =>
    if w.writeModuleOk filename then
      let (effs, ok) := writeModules w v rest
      (SetupEffect.writeModule v filename :: effs, ok)
    else ([SetupEffect.writeModule v filename], false)

/-- `SetupEnvironment` from executor.go, as a function of the generated
environment id and the outcome of each external call.  Order of
operations is the order of the Go code: create the volume, then validate
every module filename (removing the volume on the first invalid name),
then write the modules, chown, install dependencies when any are listed,
resolve the TTL (0 becomes the 3600 default) and insert the row; every
failure after volume creation removes the volume before returning. -/
def SetupEnvironment (w : SetupWorld) (envID : String) (req : SetupRequest) :
    List SetupEffect × SetupOutcome :=
  let volumeName := "tee-env-" ++ envID
  let runtime := if req.runtime = "" then "deno" else req.runtime
  if !w.createVolumeOk then
    ([SetupEffect.createVolume volumeName],
     SetupOutcome.err "failed to create volume")
  else if req.modules.any (fun p => !isValidModuleName p.1) then
    ([SetupEffect.createVolume volumeName, SetupEffect.removeVolume volumeName],
     SetupOutcome.err "invalid module filename")
  else
    let (writeEffs, writesOk) := writeModules w volumeName req.modules
    if !writesOk then
      (SetupEffect.createVolume volumeName :: writeEffs ++
        [SetupEffect.removeVolume volumeName],
       SetupOutcome.err "failed to write module")
    else
      let effs0 := SetupEffect.createVolume volumeName :: writeEffs ++
        [SetupEffect.chownVolume volumeName]
      let hasDeps := hasDependencies req
      if hasDeps && !w.installOk then
        (effs0 ++ [SetupEffect.installDependencies volumeName,
          SetupEffect.removeVolume volumeName],
         SetupOutcome.err "failed to install dependencies")
      else
        let effs1 := effs0 ++
          (if hasDeps then [SetupEffect.installDependencies volumeName] else [])
        let ttl := resolveTTL req.ttlSeconds
        if !w.insertOk then
          (effs1 ++ [SetupEffect.insertRow envID volumeName req.mainModule runtime ttl,
            SetupEffect.removeVolume volumeName],
           SetupOutcome.err "failed to store environment")
        else
          (effs1 ++ [SetupEffect.insertRow envID volumeName req.mainModule runtime ttl],
           SetupOutcome.ok
             { id := envID, volumeName := volumeName,
               mainModule := req.mainModule, runtime := runtime,
               executionCount := 0, status := "ready", ttlSeconds := ttl })

/-! ## The reaper (reaper.go, `reapExpiredEnvironments`) -/

/-- The columns the reaper reads per expired environment. -/
structure ReapRow where
  id : Nat
  volumeName : String
  createdAt : Int
  ttlSeconds : Int
deriving DecidableEq

/-- A side effect of one reaper cycle. -/
inductive ReapEffect
  | removeVolume (v : String)
  | deleteRow (id : Nat)
deriving DecidableEq

/-- The SQL predicate of the reaper query:
`created_at + ttl_seconds < NOW()`. -/
def isExpired (now : Int) (r : ReapRow) : Bool :=
  r.createdAt + r.ttlSeconds < now

/-- `reapExpiredEnvironments` from reaper.go: for each row the query
returns (those expired at `now`), remove the Docker volume, then delete
the database row; in the order of the Go loop. -/
def reapExpiredEnvironments (now : Int) : List ReapRow → List ReapEffect
  | [] => []
  | r :: rest =>
    if isExpired now r then
      ReapEffect.removeVolume r.volumeName :: ReapEffect.deleteRow r.id ::
        reapExpiredEnvironments now rest
    else
      reapExpiredEnvironments now rest

/-! ## Boot reconciliation (reaper.go, `ReconcileEnvironments`) -/

/-- One `environments` row as the reconciler sees it. -/
structure RecRow where
  id : Nat
  volumeName : String
deriving DecidableEq

/-- The joint state the reconciler operates on: the `environments` rows
and the set of Docker volume names (`docker volume ls`), as lists. -/
structure RecState where
  rows : List RecRow
  vols : List String
deriving DecidableEq

/-- `ReconcileEnvironments` from reaper.go on the happy path (every
Docker and database call succeeds): list the Docker volumes, delete (by
id) every row whose volume is not among them, re-query the remaining
rows, and force-remove every Docker volume that has the `tee-env-`
prefix and belongs to no remaining row.  The row deletions are issued
while iterating a query snapshot taken beforehand, so the deleted-id set
is computed from the initial rows. -/
def ReconcileEnvironments (s : RecState) : RecState :=
  let dockerVolumes := s.vols
  let deletedIds :=
    (s.rows.filter fun r => !dockerVolumes.contains r.volumeName).map RecRow.id
  let rows1 := s.rows.filter fun r => !deletedIds.contains r.id
  let dbVolumes := rows1.map RecRow.volumeName
  let vols1 := dockerVolumes.filter fun v =>
    !(v.startsWith "tee-env-" && !dbVolumes.contains v)
  { rows := rows1, vols := vols1 }

/-! ## Claim-side formulations

Definitions below named `spec...` restate a claim's wording; the
theorems compare them with the embedded code. -/

/-- Claim C4 wording: the captured stdout parsed as a structured frame
with `success = true`. -/
def parsedSuccessTrue (out : RunOutcome) : Bool :=
  match out.stdoutParse with
  | some f => f.success
  | none => false

/-- The captured stdout parsed as a structured frame with
`success = false` (the one parse outcome that changes the exit code). -/
def parsedSuccessFalse (out : RunOutcome) : Bool :=
  match out.stdoutParse with
  | some f => !f.success
  | none => false

/-- The exit code of the worker process itself: `0` when `cmd.Run`
returned no error, the `ExitCode()` of an `*exec.ExitError`
otherwise. -/
def workerExitCode (out : RunOutcome) : Int :=
  match out.err with
  | some (RunErr.exitErr c) => c
  | _ => 0

/-- The `allowEnv` permission value recorded for an environment, looked
up through the nested metadata guards of `buildAllowedEnvVars`; `none`
covers every "absent" shape (nil metadata, absent or nil `permissions`,
non-object `permissions`, absent or nil `allowEnv`). -/
def allowEnvOf : EnvMetadata → Option PermValue
  | none => none
  | some none => none
  | some (some MetaPermissions.notMap) => none
  | some (some (MetaPermissions.pmap _ ae)) => ae

/-- Claim C6 wording: the intersection of the string elements of the
`allow_env` list with the request's env keys (in request key order). -/
def specAllowedIntersection (items : List PermValue) (reqEnvKeys : List String) :
    List String :=
  reqEnvKeys.filter fun k => items.any fun it =>
    match it with
    | PermValue.pstr s => s == k
    | _ => false

/-! ## Concrete fixtures used by the closed theorems -/

/-- A configuration with nothing overridden (gVisor enabled, default
images and caps). -/
def sampleCfg : ExecConfig :=
  { gvisorDisabled := false, runtimeImageBun := none,
    runtimeImageDeno := none, runtimeImageLegacy := none,
    maxTimeoutMsCfg := none, maxMemoryMbCfg := none }

/-- An environment row with no recorded metadata. -/
def sampleRow : EnvRow :=
  { volumeName := "tee-env-11111111", mainModule := "main.ts",
    runtime := none, metadata := none }

/-- An environment row whose recorded permissions carry an `allowNet`
host list (and no `allowEnv`). -/
def allowNetRow : EnvRow :=
  { volumeName := "tee-env-22222222", mainModule := "main.ts",
    runtime := none,
    metadata := some (some (MetaPermissions.pmap
      (some (PermValue.parr [PermValue.pstr "api.example.com"])) none)) }

/-- A bun-runtime environment row whose recorded permissions carry an
`allowEnv` list. -/
def bunRow : EnvRow :=
  { volumeName := "tee-env-33333333", mainModule := "main.ts",
    runtime := some "bun",
    metadata := some (some (MetaPermissions.pmap none
      (some (PermValue.parr [PermValue.pstr "A"])))) }

/-- An execute request passing the single env key `B` (disjoint from
`bunRow`'s allow list). -/
def bunExecReq : ExecuteRequest := { envKeys := ["B"], limits := none }

/-- An execute request with no env overrides and no limits. -/
def emptyExecReq : ExecuteRequest := { envKeys := [], limits := none }

/-- An execute request asking for a 500 ms timeout. -/
def shortTimeoutReq : ExecuteRequest :=
  { envKeys := [], limits := some { timeoutMs := 500, memoryMb := 128 } }

/-- What `cmd.Run` reports when the worker is still running as the
execution deadline elapses: `exec.CommandContext` kills the `docker`
client process with SIGKILL, `(*Cmd).Wait` prefers the process error
over the context error, so `cmd.Run` returns an `*exec.ExitError` whose
`ExitCode()` is `-1` (signal-terminated), while
`execCtx.Err() = context.DeadlineExceeded`; the killed worker produced
no structured stdout. -/
def timeoutRunOutcome : RunOutcome :=
  { err := some (RunErr.exitErr (-1)), deadlineExceeded := true,
    stdoutRaw := "", stderrRaw := "", stdoutParse := none,
    durationMs := 600 }

/-- A worker run that exited 0 printing plain (non-JSON) text. -/
def rawStdoutOutcome : RunOutcome :=
  { err := none, deadlineExceeded := false, stdoutRaw := "hello",
    stderrRaw := "", stdoutParse := none, durationMs := 7 }

/-- A setup world in which every external call succeeds. -/
def okSetupWorld : SetupWorld :=
  { createVolumeOk := true, writeModuleOk := fun _ => true,
    installOk := true, insertOk := true }

/-- A setup request whose single module filename contains a `..`
segment. -/
def badNameSetupReq : SetupRequest :=
  { mainModule := "main.ts", modules := [("../evil.ts", "x")],
    dependencies := none, ttlSeconds := 0, runtime := "" }

/-- A setup request with a negative TTL. -/
def negativeTtlSetupReq : SetupRequest :=
  { mainModule := "main.ts", modules := [("main.ts", "export {}")],
    dependencies := none, ttlSeconds := -5, runtime := "" }

/-- An environments row that is long expired at time 100. -/
def expiredReapRow : ReapRow :=
  { id := 7, volumeName := "tee-env-a", createdAt := 0, ttlSeconds := 10 }

/-- Claim C5 wording: start from 5000 ms and replace by the request's
timeout when supplied and positive. -/
def specOverlayTimeoutMs (limits : Option ResourceLimits) : Int :=
  match limits with
  | some l => if l.timeoutMs > 0 then l.timeoutMs else 5000
  | none => 5000

/-- Claim C5 wording: start from 128 MB and replace by the request's
memory limit when supplied and positive. -/
def specOverlayMemoryMb (limits : Option ResourceLimits) : Int :=
  match limits with
  | some l => if l.memoryMb > 0 then l.memoryMb else 128
  | none => 128

/-- Claim C5 wording: the timeout hard cap, 60000 ms unless overridden
by a positive configured `MAX_TIMEOUT_MS`. -/
def specTimeoutCap (cfgVal : Option Int) : Int :=
  match cfgVal with
  | some v => if v > 0 then v else 60000
  | none => 60000

/-- Claim C5 wording: the memory hard cap, 512 MB unless overridden by
a positive configured `MAX_MEMORY_MB`. -/
def specMemoryCap (cfgVal : Option Int) : Int :=
  match cfgVal with
  | some v => if v > 0 then v else 512
  | none => 512

/-- C5: the effective limits are the request overlay over the defaults,
clamped (as a `min`) to the configurable hard caps. -/
theorem effective_limits_overlay_then_clamp
    (limits : Option ResourceLimits) (cT cM : Option Int) :
    effectiveLimits limits cT cM =
      (min (specOverlayTimeoutMs limits) (specTimeoutCap cT),
       min (specOverlayMemoryMb limits) (specMemoryCap cM)) := by
  rcases limits with _ | l <;> rcases cT with _ | t <;> rcases cM with _ | m <;>
    simp only [effectiveLimits, specOverlayTimeoutMs, specOverlayMemoryMb,
      specTimeoutCap, specMemoryCap, min_def, Prod.mk.injEq] <;>
    constructor <;> split_ifs <;> omega

/-- Helper: after one reconciliation every kept row's volume is still
listed, and every kept `tee-env-` volume belongs to a kept row. -/
theorem reconcile_invariants (s : RecState) :
    (∀ r ∈ (ReconcileEnvironments s).rows,
      r.volumeName ∈ (ReconcileEnvironments s).vols) ∧
    (∀ v ∈ (ReconcileEnvironments s).vols, v.startsWith "tee-env-" = true →
      ∃ a ∈ (ReconcileEnvironments s).rows, a.volumeName = v) := by
  constructor
  · intro r hr
    simp only [ReconcileEnvironments, List.mem_filter] at hr
    obtain ⟨hrA, hdel⟩ := hr
    simp at hdel
    have hvol : r.volumeName ∈ s.vols := by
      by_contra hcon
      exact hdel r hrA hcon rfl
    simp only [ReconcileEnvironments]
    simp [List.mem_filter]
    exact ⟨hvol, Or.inr ⟨r, ⟨hrA, hdel⟩, rfl⟩⟩
  · intro v hv hpre
    simp only [ReconcileEnvironments] at hv ⊢
    simp [List.mem_filter] at hv ⊢
    obtain ⟨-, hkeep⟩ := hv
    rcases hkeep with hf | ⟨a, ha, hav⟩
    · rw [hpre] at hf
      exact absurd hf (by simp)
    · exact ⟨a, ha, hav⟩

/-- Helper: a state in which every row's volume is listed and every
`tee-env-` volume belongs to a row is a fixed point of the
reconciler. -/
theorem reconcile_fixed_point (t : RecState)
    (h1 : ∀ r ∈ t.rows, r.volumeName ∈ t.vols)
    (h2 : ∀ v ∈ t.vols, v.startsWith "tee-env-" = true →
      ∃ a ∈ t.rows, a.volumeName = v) :
    ReconcileEnvironments t = t := by
  have hdel : (t.rows.filter fun r => !t.vols.contains r.volumeName) = [] := by
    rw [List.filter_eq_nil_iff]
    intro r hr
    simp [h1 r hr]
  have hrows : (ReconcileEnvironments t).rows = t.rows := by
    simp only [ReconcileEnvironments, hdel]
    exact List.filter_eq_self.mpr (by intro a _; simp)
  have hvols : (ReconcileEnvironments t).vols = t.vols := by
    simp only [ReconcileEnvironments, hdel]
    refine List.filter_eq_self.mpr ?_
    intro v hv
    by_cases hpre : v.startsWith "tee-env-" = true
    · obtain ⟨a, ha, hav⟩ := h2 v hv hpre
      simp [hpre]
      exact ⟨a, ha, hav⟩
    · rw [Bool.not_eq_true] at hpre
      simp [hpre]
  show (⟨(ReconcileEnvironments t).rows, (ReconcileEnvironments t).vols⟩ : RecState) = t
  rw [hrows, hvols]

/-- C8: boot reconciliation is idempotent — running
`ReconcileEnvironments` twice from any combination of Store rows and
backend volumes yields the same state as running it once. -/
theorem reconcile_idempotent (s : RecState) :
    ReconcileEnvironments (ReconcileEnvironments s) = ReconcileEnvironments s := by
  obtain ⟨h1, h2⟩ := reconcile_invariants s
  exact reconcile_fixed_point (ReconcileEnvironments s) h1 h2

/-- C2 (counterexample): a setup request with the invalid module
filename `../evil.ts` is rejected with a validation error, yet the run
has already performed a side effect: the volume was created before the
filenames were validated.  This refutes "the rejection happens before
any side effect: in particular no volume is created for that
request". -/
theorem setup_invalid_name_volume_created_cx :
    SetupEnvironment okSetupWorld "e1" badNameSetupReq =
      ([SetupEffect.createVolume "tee-env-e1", SetupEffect.removeVolume "tee-env-e1"],
        SetupOutcome.err "invalid module filename")
    ∧ SetupEffect.createVolume "tee-env-e1"
        ∈ (SetupEnvironment okSetupWorld "e1" badNameSetupReq).1 := by
  constructor
  · decide
  · decide

/-- C2 (amended): for every setup request containing an invalid module
filename (and a volume-creation call that succeeds), `SetupEnvironment`
fails with the validation error, no module is written, no dependency is
installed, no row is inserted, and the volume that was created first is
removed again before returning — the full effect trace is exactly
create-then-remove. -/
theorem setup_invalid_module_rejected_volume_rolled_back
    (w : SetupWorld) (envID : String) (req : SetupRequest)
    (hok : w.createVolumeOk = true)
    (hbad : req.modules.any (fun p => !isValidModuleName p.1) = true) :
    SetupEnvironment w envID req =
      ([SetupEffect.createVolume ("tee-env-" ++ envID),
        SetupEffect.removeVolume ("tee-env-" ++ envID)],
       SetupOutcome.err "invalid module filename") := by
  simp [SetupEnvironment, hok, hbad]

/-- Witness for the amended C2 at a concrete request. -/
theorem setup_invalid_module_rejected_volume_rolled_back_witness :
    SetupEnvironment okSetupWorld "e1" badNameSetupReq =
      ([SetupEffect.createVolume "tee-env-e1", SetupEffect.removeVolume "tee-env-e1"],
       SetupOutcome.err "invalid module filename") :=
  setup_invalid_module_rejected_volume_rolled_back okSetupWorld "e1"
    badNameSetupReq (by decide) (by decide)

/-- C10: on every successful setup the stored and returned TTL is the
requested one with `0` replaced by the 3600-second default; any nonzero
value — including a negative one — is persisted verbatim, so a negative
requested TTL makes `created_at + ttl` lie strictly before
`created_at` (hence already in the past at creation). -/
theorem setup_ttl_resolution
    (w : SetupWorld) (envID : String) (req : SetupRequest)
    (effs : List SetupEffect) (env : Environment)
    (h : SetupEnvironment w envID req = (effs, SetupOutcome.ok env)) :
    env.ttlSeconds = (if req.ttlSeconds = 0 then 3600 else req.ttlSeconds)
    ∧ SetupEffect.insertRow envID ("tee-env-" ++ envID) req.mainModule
        (if req.runtime = "" then "deno" else req.runtime) env.ttlSeconds ∈ effs
    ∧ (req.ttlSeconds < 0 → ∀ createdAt : Int, createdAt + env.ttlSeconds < createdAt) := by
  simp only [SetupEnvironment] at h
  repeat' split at h
  all_goals rw [Prod.mk.injEq] at h
  all_goals obtain ⟨he, ho⟩ := h
  all_goals try exact (SetupOutcome.noConfusion ho)
  all_goals injection ho with ho
  all_goals subst ho
  all_goals subst he
  all_goals refine ⟨rfl, ?_, ?_⟩
  all_goals try
    (intro hneg createdAt
     have hne : resolveTTL req.ttlSeconds = req.ttlSeconds := by
       simp only [resolveTTL]
       rw [if_neg (by omega)]
     show createdAt + resolveTTL req.ttlSeconds < createdAt
     rw [hne]
     omega)
  all_goals simp_all

/-- Witness for C10 at a concrete negative-TTL request. -/
theorem setup_ttl_resolution_witness :
    ((-5 : Int) = if (-5 : Int) = 0 then 3600 else (-5 : Int))
    ∧ SetupEffect.insertRow "e2" "tee-env-e2" "main.ts" "deno" (-5)
        ∈ [SetupEffect.createVolume "tee-env-e2",
           SetupEffect.writeModule "tee-env-e2" "main.ts",
           SetupEffect.chownVolume "tee-env-e2",
           SetupEffect.insertRow "e2" "tee-env-e2" "main.ts" "deno" (-5)]
    ∧ ((-5 : Int) < 0 → ∀ createdAt : Int, createdAt + (-5 : Int) < createdAt) := by
  exact setup_ttl_resolution okSetupWorld "e2" negativeTtlSetupReq
    [SetupEffect.createVolume "tee-env-e2",
     SetupEffect.writeModule "tee-env-e2" "main.ts",
     SetupEffect.chownVolume "tee-env-e2",
     SetupEffect.insertRow "e2" "tee-env-e2" "main.ts" "deno" (-5)]
    { id := "e2", volumeName := "tee-env-e2", mainModule := "main.ts",
      runtime := "deno", executionCount := 0, status := "ready",
      ttlSeconds := -5 } (by decide)

/-- C7 (counterexample): for a single expired environment the reaper's
effect trace is volume removal first, row deletion second; this refutes
"the Store row is removed first and the volume is removed only after
the row removal". -/
theorem reaper_removes_volume_before_row_cx :
    reapExpiredEnvironments 100 [expiredReapRow] =
      [ReapEffect.removeVolume "tee-env-a", ReapEffect.deleteRow 7]
    ∧ (reapExpiredEnvironments 100 [expiredReapRow]).head?
        = some (ReapEffect.removeVolume "tee-env-a")
    ∧ (reapExpiredEnvironments 100 [expiredReapRow]).findIdx
          (fun e => e == ReapEffect.removeVolume "tee-env-a")
        < (reapExpiredEnvironments 100 [expiredReapRow]).findIdx
          (fun e => e == ReapEffect.deleteRow 7) := by
  refine ⟨by decide, by decide, by decide⟩

/-- C7 (amended): in every reaper cycle, for each expired environment
the volume removal appears in the effect trace immediately before that
environment's row deletion — volume first, Store row after. -/
theorem reaper_volume_removal_precedes_row_delete
    (now : Int) (rows : List ReapRow) (r : ReapRow)
    (hmem : r ∈ rows) (hexp : isExpired now r = true) :
    ∃ i, (reapExpiredEnvironments now rows)[i]?
        = some (ReapEffect.removeVolume r.volumeName)
      ∧ (reapExpiredEnvironments now rows)[i + 1]?
        = some (ReapEffect.deleteRow r.id) := by
  induction rows with
  | nil => cases hmem
  | cons head rest ih =>
    rcases List.mem_cons.mp hmem with rfl | hmem2
    · refine ⟨0, ?_, ?_⟩ <;> simp [reapExpiredEnvironments, hexp]
    · obtain ⟨i, h1, h2⟩ := ih hmem2
      by_cases hh : isExpired now head = true
      · refine ⟨i + 2, ?_, ?_⟩
        · simpa [reapExpiredEnvironments, hh] using h1
        · simpa [reapExpiredEnvironments, hh] using h2
      · rw [Bool.not_eq_true] at hh
        refine ⟨i, ?_, ?_⟩
        · simpa [reapExpiredEnvironments, hh] using h1
        · simpa [reapExpiredEnvironments, hh] using h2

/-- Witness for the amended C7 at a concrete expired row. -/
theorem reaper_volume_removal_precedes_row_delete_witness :
    ∃ i, (reapExpiredEnvironments 100 [expiredReapRow])[i]?
        = some (ReapEffect.removeVolume "tee-env-a")
      ∧ (reapExpiredEnvironments 100 [expiredReapRow])[i + 1]?
        = some (ReapEffect.deleteRow 7) :=
  reaper_volume_removal_precedes_row_delete 100 [expiredReapRow]
    expiredReapRow (by decide) (by decide)

/-- C1 (code defect): when the worker is still running as the deadline
elapses, Go kills it and `cmd.Run` reports an `*exec.ExitError` with
`ExitCode() = -1` (see `timeoutRunOutcome`); the exit handler checks the
`*exec.ExitError` shape before the deadline check, so the returned
response carries exit code `-1` and the captured stderr — not the
reserved `{exit_code: 124, stderr: "Execution timeout exceeded"}` the
claim states.  The dedicated deadline branch (which does return 124) is
reachable only when the error is not an `*exec.ExitError`. -/
theorem timeout_kill_returns_exit_error_response :
    (ExecuteInEnvironment sampleCfg (some sampleRow) shortTimeoutReq
        timeoutRunOutcome true true).1
      = ExecOutcome.ok
          { exitCode := -1, stdout := "", stderr := "", durationMs := 600 }
    ∧ (ExecuteInEnvironment sampleCfg (some sampleRow) shortTimeoutReq
        timeoutRunOutcome true true).1
      ≠ ExecOutcome.ok
          { exitCode := 124, stdout := "",
            stderr := "Execution timeout exceeded", durationMs := 600 } := by
  refine ⟨rfl, by decide⟩

/-- C3 (code defect): for an environment whose recorded permissions
carry an `allowNet` host list, the execute pipeline still launches the
worker with `--network=none`; no `--network=bridge` flag and no trace of
the allow-listed host appear anywhere in the `docker run` argument list
(the executor never reads `allowNet`). -/
theorem execute_ignores_allow_net :
    "--network=none" ∈ buildDockerArgs sampleCfg "tee-env-22222222" 128 "deno"
        allowNetRow.metadata []
    ∧ "--network=bridge" ∉ buildDockerArgs sampleCfg "tee-env-22222222" 128 "deno"
        allowNetRow.metadata []
    ∧ (buildDockerArgs sampleCfg "tee-env-22222222" 128 "deno"
        allowNetRow.metadata []).all
        (fun a => !containsSubstr a "api.example.com") = true
    ∧ (ExecuteInEnvironment sampleCfg (some allowNetRow) emptyExecReq
          rawStdoutOutcome true true).2.head?
        = some (ExecEffect.runWorker 5000
            (buildDockerArgs sampleCfg "tee-env-22222222" 128 "deno"
              allowNetRow.metadata [])) := by
  refine ⟨by decide, by decide, by decide, by decide⟩

/-- C4 (counterexample): a worker that exits 0 printing the plain text
`hello` (which does not parse as a structured frame) produces a response
with exit code 0, although stdout did not parse as a `success = true`
frame; this refutes "exit code 0 iff stdout parsed as a structured
frame with success=true". -/
theorem exit_zero_without_success_frame_cx :
    (ExecuteInEnvironment sampleCfg (some sampleRow) emptyExecReq
        rawStdoutOutcome true true).1
      = ExecOutcome.ok
          { exitCode := 0, stdout := "hello", stderr := "", durationMs := 7 }
    ∧ parsedSuccessTrue rawStdoutOutcome = false := by
  exact ⟨rfl, rfl⟩

/-- C4 (amended): for every completed (non-timeout-path) execution, the
recorded and returned exit code is 0 iff the worker itself exited 0 and
the captured stdout did not parse as a structured frame with
`success = false`.  (A `success = false` frame promotes exit 0 to 1;
every other parse outcome leaves the worker's exit code unchanged.) -/
theorem exit_code_zero_iff_worker_zero_and_no_failure_frame
    (cfg : ExecConfig) (row : EnvRow) (req : ExecuteRequest) (out : RunOutcome)
    (insertOk updateOk : Bool) (resp : ExecutionResponse)
    (hcomplete : out.err ≠ some RunErr.otherErr)
    (hresp : (ExecuteInEnvironment cfg (some row) req out insertOk updateOk).1
      = ExecOutcome.ok resp) :
    resp.exitCode = 0 ↔ (workerExitCode out = 0 ∧ parsedSuccessFalse out = false) := by
  have hkey : (completedResponse out).exitCode = 0 ↔
      (workerExitCode out = 0 ∧ parsedSuccessFalse out = false) := by
    rcases out with ⟨err, dl, so, se, parse, dur⟩
    simp only [completedResponse, workerExitCode, parsedSuccessFalse]
    rcases parse with _ | f
    · simp
    · by_cases hs : f.success
      · simp [hs]
      · rw [Bool.not_eq_true] at hs
        simp only [hs]
        simp only [Bool.false_eq_true, if_false, Bool.not_false]
        constructor
        · intro hc
          split at hc <;> omega
        · intro hc
          exact absurd hc.2 (by simp)
  have hresp2 : resp = completedResponse out := by
    rcases hout : out.err with _ | e
    · simp only [ExecuteInEnvironment, hout] at hresp
      cases hresp
      rfl
    · cases e
      · simp only [ExecuteInEnvironment, hout] at hresp
        cases hresp
        rfl
      · exact absurd hout hcomplete
  rw [hresp2]
  exact hkey

/-- Witness for the amended C4 at the concrete raw-stdout run. -/
theorem exit_code_zero_iff_worker_zero_and_no_failure_frame_witness :
    (({ exitCode := 0, stdout := "hello", stderr := "",
        durationMs := 7 } : ExecutionResponse).exitCode = 0
      ↔ (workerExitCode rawStdoutOutcome = 0
         ∧ parsedSuccessFalse rawStdoutOutcome = false)) :=
  exit_code_zero_iff_worker_zero_and_no_failure_frame sampleCfg sampleRow
    emptyExecReq rawStdoutOutcome true true
    { exitCode := 0, stdout := "hello", stderr := "", durationMs := 7 }
    (by decide) (by decide)

/-- C9: for every execution whose worker ran (the run error, if any,
was an `*exec.ExitError`), the response returned to the caller does not
depend on whether the execution-record insert or the stats update
succeeded — both are only logged — and the result is always a normal
(non-error) response. -/
theorem db_write_failures_do_not_change_response
    (cfg : ExecConfig) (row : EnvRow) (req : ExecuteRequest) (out : RunOutcome)
    (insertOk updateOk : Bool)
    (hcomplete : out.err ≠ some RunErr.otherErr) :
    (ExecuteInEnvironment cfg (some row) req out insertOk updateOk).1
      = (ExecuteInEnvironment cfg (some row) req out true true).1
    ∧ (ExecuteInEnvironment cfg (some row) req out insertOk updateOk).1
      = ExecOutcome.ok (completedResponse out) := by
  rcases hout : out.err with _ | e
  · simp only [ExecuteInEnvironment, hout]
    exact ⟨trivial, trivial⟩
  · cases e
    · simp only [ExecuteInEnvironment, hout]
      exact ⟨trivial, trivial⟩
    · exact absurd hout hcomplete

/-- Witness for C9 with both database writes failing. -/
theorem db_write_failures_do_not_change_response_witness :
    (ExecuteInEnvironment sampleCfg (some sampleRow) emptyExecReq
        rawStdoutOutcome false false).1
      = (ExecuteInEnvironment sampleCfg (some sampleRow) emptyExecReq
          rawStdoutOutcome true true).1
    ∧ (ExecuteInEnvironment sampleCfg (some sampleRow) emptyExecReq
        rawStdoutOutcome false false).1
      = ExecOutcome.ok (completedResponse rawStdoutOutcome) :=
  db_write_failures_do_not_change_response sampleCfg sampleRow emptyExecReq
    rawStdoutOutcome false false (by decide)

/-- Helper: testing membership in the string elements extracted from a
permission array is the same as scanning the array for a matching
string element. -/
theorem contains_filterMap_strings (items : List PermValue) (k : String) :
    ((items.filterMap fun it =>
        match it with
        | PermValue.pstr s => some s
        | _ => none).contains k)
      = (items.any fun it =>
        match it with
        | PermValue.pstr s => s == k
        | _ => false) := by
  induction items with
  | nil => rfl
  | cons it rest ih =>
    cases it <;> simp only [List.filterMap_cons, List.any_cons] <;>
      try simpa using ih
    rename_i s
    simp only [List.contains_cons]
    rw [← ih]
    cases hks : k == s
    · have : (s == k) = false := by
        simp only [beq_eq_false_iff_ne] at hks ⊢
        exact fun hc => hks hc.symm
      simp [this]
    · have : (s == k) = true := by
        simp only [beq_iff_eq] at hks ⊢
        exact hks.symm
      simp [this]

/-- C6 (amended): for a deno-runtime worker the keys it may see are
derived from the recorded `allow_env` permission — absent (in any of
its shapes) or boolean `true` gives the empty string, i.e. no
restriction (all request keys pass and no `ALLOWED_ENV_VARS` variable
is set); a list gives exactly the intersection of its string elements
with the request keys, joined with commas; an empty intersection gives
the sentinel `__NONE__`, which is then passed to the worker as
`ALLOWED_ENV_VARS=__NONE__` in place of any key.  A bun-runtime worker,
by contrast, is launched with an argument list that is independent of
the recorded permissions and of the request env keys: `allow_env` is
ignored and no `ALLOWED_ENV_VARS` variable is ever set for it. -/
theorem allowed_env_vars_policy
    (md : EnvMetadata) (reqEnvKeys : List String)
    (cfg : ExecConfig) (vol : String) (mem : Int) :
    ((allowEnvOf md = none ∨ allowEnvOf md = some (PermValue.pbool true)) →
      buildAllowedEnvVars md reqEnvKeys = "")
    ∧ (∀ items, allowEnvOf md = some (PermValue.parr items) →
        buildAllowedEnvVars md reqEnvKeys =
          (if (specAllowedIntersection items reqEnvKeys).isEmpty then "__NONE__"
           else String.intercalate "," (specAllowedIntersection items reqEnvKeys)))
    ∧ (∀ items, allowEnvOf md = some (PermValue.parr items) →
        specAllowedIntersection items reqEnvKeys = [] →
        "ALLOWED_ENV_VARS=__NONE__" ∈
          buildDockerArgs cfg vol mem "deno" md reqEnvKeys)
    ∧ buildDockerArgs cfg vol mem "bun" md reqEnvKeys
        = buildDockerArgs cfg vol mem "bun" none [] := by
  have hfilter : ∀ items : List PermValue,
      (reqEnvKeys.filter fun key =>
        (items.filterMap fun it =>
          match it with
          | PermValue.pstr s => some s
          | _ => none).contains key)
      = specAllowedIntersection items reqEnvKeys := by
    intro items
    unfold specAllowedIntersection
    refine List.filter_congr ?_
    intro k _
    exact contains_filterMap_strings items k
  have hbuild : ∀ items, allowEnvOf md = some (PermValue.parr items) →
      buildAllowedEnvVars md reqEnvKeys =
        (if (specAllowedIntersection items reqEnvKeys).isEmpty then "__NONE__"
         else String.intercalate "," (specAllowedIntersection items reqEnvKeys)) := by
    intro items hae
    rcases md with _ | md1
    · exact absurd hae (by simp [allowEnvOf])
    rcases md1 with _ | perms
    · exact absurd hae (by simp [allowEnvOf])
    rcases perms with _ | ⟨an, ae⟩
    · exact absurd hae (by simp [allowEnvOf])
    rcases ae with _ | v
    · exact absurd hae (by simp [allowEnvOf])
    simp only [allowEnvOf, Option.some.injEq] at hae
    subst hae
    simp only [buildAllowedEnvVars, hfilter items]
  refine ⟨?_, hbuild, ?_, ?_⟩
  · intro hae
    rcases md with _ | md1
    · rfl
    rcases md1 with _ | perms
    · rfl
    rcases perms with _ | ⟨an, ae⟩
    · rfl
    rcases ae with _ | v
    · rfl
    rcases hae with hae | hae
    · exact absurd hae (by simp [allowEnvOf])
    · simp only [allowEnvOf, Option.some.injEq] at hae
      subst hae
      rfl
  · intro items hae hempty
    have hb := hbuild items hae
    rw [hempty] at hb
    simp only [List.isEmpty_nil, if_true] at hb
    simp [buildDockerArgs, hb]
  · rfl

/-- C6 (counterexample): on a bun-runtime environment whose recorded
`allowEnv` is the list `["A"]`, an execute request passing only the key
`B` — an empty intersection, for which the original claim demands a
sentinel "passed instead of any key" — launches the worker with no
`ALLOWED_ENV_VARS` variable at all: the executor's bun branch never
consults the permission, so neither an intersection nor the sentinel
reaches the worker (whose bun wrapper then sets every request key
unconditionally).  The final conjunct shows the execute pipeline really
invokes the worker with exactly these arguments. -/
theorem bun_env_allow_list_ignored_cx :
    allowEnvOf bunRow.metadata = some (PermValue.parr [PermValue.pstr "A"])
    ∧ specAllowedIntersection [PermValue.pstr "A"] ["B"] = []
    ∧ (buildDockerArgs sampleCfg "tee-env-33333333" 128 "bun"
        bunRow.metadata ["B"]).all
        (fun a => !containsSubstr a "ALLOWED_ENV_VARS") = true
    ∧ (ExecuteInEnvironment sampleCfg (some bunRow) bunExecReq
          rawStdoutOutcome true true).2.head?
        = some (ExecEffect.runWorker 5000
            (buildDockerArgs sampleCfg "tee-env-33333333" 128 "bun"
              bunRow.metadata ["B"])) := by
  refine ⟨rfl, by decide, by decide, by decide⟩

/-- Witness for the amended C6: a two-element allow list intersected
with the request keys yields the single shared key; a disjoint allow
list puts the `__NONE__` sentinel into the deno worker's argument list;
and a bun worker's argument list ignores the recorded permissions and
request keys. -/
theorem allowed_env_vars_policy_witness :
    buildAllowedEnvVars (some (some (MetaPermissions.pmap none
        (some (PermValue.parr [PermValue.pstr "A", PermValue.pstr "B"])))))
        ["B", "C"] = "B"
    ∧ "ALLOWED_ENV_VARS=__NONE__" ∈ buildDockerArgs sampleCfg "v" 128 "deno"
        (some (some (MetaPermissions.pmap none
          (some (PermValue.parr [PermValue.pstr "X"]))))) ["B"]
    ∧ buildDockerArgs sampleCfg "v" 128 "bun"
        (some (some (MetaPermissions.pmap none
          (some (PermValue.parr [PermValue.pstr "X"]))))) ["B"]
        = buildDockerArgs sampleCfg "v" 128 "bun" none [] := by
  refine ⟨?_, ?_, ?_⟩
  · have h := (allowed_env_vars_policy (some (some (MetaPermissions.pmap none
        (some (PermValue.parr [PermValue.pstr "A", PermValue.pstr "B"])))))
        ["B", "C"] sampleCfg "v" 128).2.1
        [PermValue.pstr "A", PermValue.pstr "B"] rfl
    rw [h]
    rfl
  · exact (allowed_env_vars_policy (some (some (MetaPermissions.pmap none
        (some (PermValue.parr [PermValue.pstr "X"]))))) ["B"]
        sampleCfg "v" 128).2.2.1 [PermValue.pstr "X"] rfl rfl
  · exact (allowed_env_vars_policy (some (some (MetaPermissions.pmap none
        (some (PermValue.parr [PermValue.pstr "X"]))))) ["B"]
        sampleCfg "v" 128).2.2.2

end AssistTee
